import Mathlib

set_option maxHeartbeats 1000000
set_option linter.unusedVariables false

/-!
Verification of the caption-generation backend.

The definitions below are a shallow embedding of the Python sources:
  * app/services/local_research.py  (address parser, rurality heuristic)
  * app/services/openai_service.py  (video-extension dispatch)
  * app/services/quality_scorer.py  (score parsing, tiering, fallback)
  * app/services/caption_chat.py    (chat message assembly)
  * app/api/routes.py               (generate/regenerate handlers)

External collaborators (the AI provider, the JSON parser of the standard
library, the database and the filesystem) are modelled as explicit
parameters/oracles; everything the repository itself computes is embedded
directly.
-/

/-! ### Character classes and string utilities (ASCII, Python semantics) -/

def isWsChar (c : Char) : Bool :=
  c = ' ' || c = '\t' || c = '\n' || c = '\r' || c = '\x0b' || c = '\x0c'

def isUpperChar (c : Char) : Bool := 'A' ≤ c && c ≤ 'Z'

def isAlphaChar (c : Char) : Bool := ('A' ≤ c && c ≤ 'Z') || ('a' ≤ c && c ≤ 'z')

def isDigitChar (c : Char) : Bool := '0' ≤ c && c ≤ '9'

def toLowerL (l : List Char) : List Char := l.map Char.toLower

def toUpperL (l : List Char) : List Char := l.map Char.toUpper

def dropWs (l : List Char) : List Char := l.dropWhile isWsChar

/-- Python str.strip(): remove leading and trailing whitespace. -/
def pstrip (l : List Char) : List Char :=
  ((l.dropWhile isWsChar).reverse.dropWhile isWsChar).reverse

def startsWithL : List Char → List Char → Bool
  | _, [] => true
  | [], _ :: _ => false
  | c :: cs, p :: ps => (c = p) && startsWithL cs ps

def containsSub (pat : List Char) : List Char → Bool
  | [] => startsWithL [] pat
  | c :: cs => startsWithL (c :: cs) pat || containsSub pat cs

/-- The remainder after the first occurrence of `pat` (Python split(sep)[1:],
rejoined; only used when an occurrence is known to exist). -/
def afterFirst (pat : List Char) : List Char → List Char
  | [] => []
  | c :: cs => if startsWithL (c :: cs) pat then (c :: cs).drop pat.length else afterFirst pat cs

/-- The portion before the first occurrence of `pat` (Python split(sep)[0]). -/
def upToFirst (pat : List Char) : List Char → List Char
  | [] => []
  | c :: cs => if startsWithL (c :: cs) pat then [] else c :: upToFirst pat cs

/-- Python str.split(sep) for a one-character separator. -/
def splitOn (sep : Char) : List Char → List (List Char)
  | [] => [[]]
  | c :: cs =>
    let r := splitOn sep cs
    if c = sep then [] :: r
    else
      match r with
      | h :: t => (c :: h) :: t
      | [] => [[c]]

/-- Python str.endswith. -/
def endsWithL (l suffix : List Char) : Bool := startsWithL l.reverse suffix.reverse

/-! ### Address parser — local_research.py, extract_city_state_from_address

The four regular-expression strategies are embedded as direct matchers with
Python re.search semantics (leftmost match; greediness resolved as the
backtracking engine would on these particular patterns). -/

/-- Split a string at its first comma, if any. -/
def splitAtFirstComma? : List Char → Option (List Char × List Char)
  | [] => none
  | c :: cs =>
    if c = ',' then some ([], cs)
    else
      match splitAtFirstComma? cs with
      | some (a, b) => some (c :: a, b)
      | none => none

/-- After skipping whitespace, the next two characters if both are uppercase. -/
def upper2After (l : List Char) : Option (Char × Char) :=
  match dropWs l with
  | a :: b :: _ => if isUpperChar a && isUpperChar b then some (a, b) else none
  | _ => none

/-- re.search of pattern1 = `,\s*([^,]+),\s*([A-Z]{2})\s*\d*`.
A match must start at a comma; between it and the next comma at least one
character (all non-comma) forms group 1; after that comma, whitespace then two
uppercase letters form group 2 (the trailing `\s*\d*` always matches). -/
def pattern1Core : List Char → Option (List Char × List Char)
  | [] => none
  | c :: rest =>
    if c = ',' then
      match splitAtFirstComma? rest with
      | some (mid, after) =>
        if mid = [] then pattern1Core rest
        else
          match upper2After after with
          | some (a, b) => some (mid, [a, b])
          | none => pattern1Core rest
      | none => none
    else pattern1Core rest

/-- re.search of pattern2 = `,\s*([^,]+),\s*([A-Za-z\s]+)\s*\d*`.
Group 2 is the maximal letters-and-whitespace run after the second comma's
leading whitespace; if that run is empty but whitespace preceded, the engine
backtracks `\s*` by one character and the group captures that single
whitespace character. -/
def pattern2Core : List Char → Option (List Char × List Char)
  | [] => none
  | c :: rest =>
    if c = ',' then
      match splitAtFirstComma? rest with
      | some (mid, after) =>
        if mid = [] then pattern2Core rest
        else
          let w := after.takeWhile isWsChar
          let t := after.dropWhile isWsChar
          let r := t.takeWhile (fun ch => isAlphaChar ch || isWsChar ch)
          if r ≠ [] then some (mid, r)
          else
            match w.reverse with
            | wl :: _ => some (mid, [wl])
            | [] => pattern2Core rest
      | none => none
    else pattern2Core rest

/-- The 50-entry full-state-name → abbreviation table, in source order. -/
def stateTable : List (String × String) :=
  [("alabama", "AL"), ("alaska", "AK"), ("arizona", "AZ"), ("arkansas", "AR"),
   ("california", "CA"), ("colorado", "CO"), ("connecticut", "CT"),
   ("delaware", "DE"), ("florida", "FL"), ("georgia", "GA"), ("hawaii", "HI"),
   ("idaho", "ID"), ("illinois", "IL"), ("indiana", "IN"), ("iowa", "IA"),
   ("kansas", "KS"), ("kentucky", "KY"), ("louisiana", "LA"), ("maine", "ME"),
   ("maryland", "MD"), ("massachusetts", "MA"), ("michigan", "MI"),
   ("minnesota", "MN"), ("mississippi", "MS"), ("missouri", "MO"),
   ("montana", "MT"), ("nebraska", "NE"), ("nevada", "NV"),
   ("new hampshire", "NH"), ("new jersey", "NJ"), ("new mexico", "NM"),
   ("new york", "NY"), ("north carolina", "NC"), ("north dakota", "ND"),
   ("ohio", "OH"), ("oklahoma", "OK"), ("oregon", "OR"),
   ("pennsylvania", "PA"), ("rhode island", "RI"), ("south carolina", "SC"),
   ("south dakota", "SD"), ("tennessee", "TN"), ("texas", "TX"),
   ("utah", "UT"), ("vermont", "VT"), ("virginia", "VA"),
   ("washington", "WA"), ("west virginia", "WV"), ("wisconsin", "WI"),
   ("wyoming", "WY")]

/-- Case-insensitive literal match of `name` against a front of `l`;
returns the remainder on success. -/
def matchNameCI : List Char → List Char → Option (List Char)
  | [], l => some l
  | _ :: _, [] => none
  | n :: ns, c :: cs => if Char.toLower c = Char.toLower n then matchNameCI ns cs else none

/-- Tail of the per-state pattern: `\s*,\s*{state_name}\s*\d*$` (IGNORECASE). -/
def stateTailMatch (name : List Char) (l : List Char) : Bool :=
  match (l.dropWhile isWsChar) with
  | ',' :: l2 =>
    match matchNameCI name (l2.dropWhile isWsChar) with
    | some l4 => ((l4.dropWhile isWsChar).dropWhile isDigitChar) = []
    | none => false
  | _ => false

/-- re.search of `([A-Z][a-zA-Z]+(?:\s+[A-Z][a-zA-Z]+)?)\s*,\s*{name}\s*\d*$`
with IGNORECASE (so the classes accept any ASCII letter).  Greedy: a second
word is preferred when the tail still matches. -/
def stateScan (name : List Char) : List Char → Option (List Char)
  | [] => none
  | c :: cs =>
    (if isAlphaChar c then
      let run := (c :: cs).takeWhile isAlphaChar
      let rest1 := (c :: cs).dropWhile isAlphaChar
      if run.length ≥ 2 then
        let ws1 := rest1.takeWhile isWsChar
        let afterWs := rest1.dropWhile isWsChar
        let run2 := afterWs.takeWhile isAlphaChar
        if ws1 ≠ [] ∧ run2.length ≥ 2 ∧ stateTailMatch name (afterWs.dropWhile isAlphaChar) then
          some (run ++ ws1 ++ run2)
        else if stateTailMatch name rest1 then some run
        else stateScan name cs
      else stateScan name cs
    else stateScan name cs)

/-- The source's loop over the state table: first state whose pattern matches. -/
def stateLoopMatch : List (String × String) → List Char → Option (List Char × List Char)
  | [], _ => none
  | (name, abbr) :: rest, s =>
    match stateScan name.data s with
    | some city => some (city, abbr.data)
    | none => stateLoopMatch rest s

/-- The repetition of capitalized words in pattern3, with fuel for
termination (fuel is the length of the remaining input). -/
def chainExt (fuel : Nat) (acc : List Char) (l : List Char) : List Char × List Char :=
  match fuel with
  | 0 => (acc, l)
  | fuel' + 1 =>
    let ws := l.takeWhile isWsChar
    let aft := l.dropWhile isWsChar
    match aft with
    | c :: _ =>
      if ws ≠ [] ∧ isUpperChar c ∧ (aft.takeWhile isAlphaChar).length ≥ 2 then
        chainExt fuel' (acc ++ ws ++ aft.takeWhile isAlphaChar) (aft.dropWhile isAlphaChar)
      else (acc, l)
    | [] => (acc, l)

/-- re.search of pattern3 =
`([A-Z][a-zA-Z]+(?:\s+[A-Z][a-zA-Z]+)*),\s*([A-Z]{2})\s*\d*$` (no IGNORECASE;
the comma must immediately follow the last word). -/
def pattern3Core : List Char → Option (List Char × List Char)
  | [] => none
  | c :: cs =>
    (if isUpperChar c ∧ ((c :: cs).takeWhile isAlphaChar).length ≥ 2 then
      let word1 := (c :: cs).takeWhile isAlphaChar
      let rest1 := (c :: cs).dropWhile isAlphaChar
      let chain := chainExt rest1.length word1 rest1
      match chain.2 with
      | ',' :: r2 =>
        (match r2.dropWhile isWsChar with
        | a :: b :: r4 =>
          if isUpperChar a ∧ isUpperChar b ∧ ((r4.dropWhile isWsChar).dropWhile isDigitChar) = [] then
            some (chain.1, [a, b])
          else pattern3Core cs
        | _ => pattern3Core cs)
      | _ => pattern3Core cs
    else pattern3Core cs)

/-- Outcome of the model-backed fallback parse (external call): either the
text the model returned, or an exception from the call. -/
inductive GptOutcome where
  | ok (text : String)
  | exn
  deriving DecidableEq

/-- local_research.py, extract_city_state_from_address.  `gptRaw = none`
models a service constructed without an API key (the fallback is skipped). -/
def extract_city_state_from_address (gptRaw : Option GptOutcome) (address : String) :
    String × String :=
  match pattern1Core address.data with
  | some (g1, g2) => (String.mk (pstrip g1), String.mk (pstrip g2))
  | none =>
  match pattern2Core address.data with
  | some (g1, g2) =>
    let sf := toLowerL (pstrip g2)
    (String.mk (pstrip g1), (stateTable.lookup (String.mk sf)).getD (String.mk (toUpperL sf)))
  | none =>
  match stateLoopMatch stateTable address.data with
  | some (cityL, abbr) => (String.mk (pstrip cityL), String.mk abbr)
  | none =>
  match pattern3Core address.data with
  | some (g1, g2) => (String.mk (pstrip g1), String.mk (pstrip g2))
  | none =>
  match gptRaw with
  | some (.ok t) =>
    let rt := pstrip t.data
    if containsSub [','] rt then
      match splitOn ',' rt with
      | [p1, p2] => (String.mk (pstrip p1), String.mk (pstrip p2))
      | _ => ("", "")
    else ("", "")
  | _ => ("", "")

/-! ### Media-type dispatch — openai_service.py, is_video_file / analyze_media -/

def video_extensions : List String :=
  [".mp4", ".mov", ".avi", ".mkv", ".webm", ".flv", ".wmv", ".m4v"]

/-- openai_service.py, is_video_file: any(filename.lower().endswith(ext)). -/
def is_video_file (filename : String) : Bool :=
  video_extensions.any (fun ext => endsWithL (toLowerL filename.data) ext.data)

inductive MediaRoute where
  | image
  | video
  deriving DecidableEq

/-- openai_service.py, analyze_media: dispatch on the path's extension; `fs`
models the filesystem (byte content under each path), which the chosen branch
then reads. -/
def analyze_media_model (fs : String → List Nat) (file_path : String) :
    MediaRoute × List Nat :=
  if is_video_file file_path then (MediaRoute.video, fs file_path)
  else (MediaRoute.image, fs file_path)

/-! ### Quality scorer — quality_scorer.py, score_caption -/

/-- JSON values as produced by the standard library parser (numbers restricted
to the integers exercised by the scorer). -/
inductive Json where
  | null
  | bool (b : Bool)
  | num (n : Int)
  | str (s : String)
  | arr (elems : List Json)
  | obj (fields : List (String × Json))

/-- Python dict assignment: replace the key in place, else append. -/
def setField : List (String × Json) → String → Json → List (String × Json)
  | [], k, v => [(k, v)]
  | (k', v') :: rest, k, v =>
    if k' = k then (k, v) :: rest else (k', v') :: setField rest k v

def jLookup (j : Json) (key : String) : Option Json :=
  match j with
  | .obj fields => fields.lookup key
  | _ => none

/-- Lines 90-98: the tier derived from the overall score. -/
def qualityTier (overall : Int) : String :=
  if overall ≥ 90 then "Excellent"
  else if overall ≥ 80 then "Good"
  else if overall ≥ 70 then "Fair"
  else "Needs Improvement"

/-- Lines 105-116: the fixed fallback score set, annotated with the error. -/
def fallback_scores (e : String) : Json :=
  Json.obj
    [("brand_consistency", .num 75), ("local_relevance", .num 75),
     ("goal_alignment", .num 75), ("overall_quality", .num 75),
     ("overall_score", .num 75), ("quality_tier", .str "Good"),
     ("issues", .arr [.str "Could not analyze automatically"]),
     ("strengths", .arr [.str "Manual review recommended"]),
     ("recommendation", .str "Review"), ("error", .str e)]

/-- Lines 82-85: extract JSON wrapped in markdown code fences. -/
def stripFences (s : String) : String :=
  if containsSub "```json".data s.data then
    String.mk (pstrip (upToFirst "```".data (afterFirst "```json".data s.data)))
  else if containsSub "```".data s.data then
    String.mk (pstrip (upToFirst "```".data (afterFirst "```".data s.data)))
  else s

/-- quality_scorer.py, score_caption.  `parse` models json.loads (an external
library: returns the value or the exception text); `response` models the model
call (the output text or the exception text).  Every exception anywhere in the
try block lands in the fallback branch. -/
def score_caption_model (parse : String → Except String Json)
    (response : Except String String) : Json :=
  match response with
  | .error e => fallback_scores e
  | .ok raw =>
    let result_text := String.mk (pstrip raw.data)
    match parse (stripFences result_text) with
    | .error e => fallback_scores e
    | .ok (Json.obj fields) =>
      (match fields.lookup "overall_score" with
      | none => Json.obj (setField fields "quality_tier" (.str (qualityTier 0)))
      | some (.num n) => Json.obj (setField fields "quality_tier" (.str (qualityTier n)))
      | some (.bool b) =>
        Json.obj (setField fields "quality_tier" (.str (qualityTier (if b then 1 else 0))))
      | some _ => fallback_scores "TypeError: comparison not supported")
    | .ok _ => fallback_scores "AttributeError: object has no attribute get"

/-! ### Rurality heuristic — local_research.py, research_location line 185 -/

/-- is_rural = "rural" in research_info.lower() and "suburban" not in
research_info.lower(). -/
def is_rural_heuristic (research_info : String) : Bool :=
  containsSub "rural".data (toLowerL research_info.data) &&
    !(containsSub "suburban".data (toLowerL research_info.data))

/-! ### Chat message assembly — caption_chat.py, chat_edit_caption -/

structure ChatMsg where
  role : String
  content : String
  deriving DecidableEq

/-- The context dict built by the route (each field read with .get and an
"Unknown" default). -/
structure ChatContext where
  city : Option String
  state : Option String
  goal : Option String
  platform : Option String
  deriving DecidableEq

/-- Lines 25-41: the system prompt carrying context and the current caption. -/
def chat_system_prompt (context : ChatContext) (current_caption : String) : String :=
  "You are a caption editing assistant for Urban Air Adventure Parks.\n\nORIGINAL CONTEXT:\n- Location: "
    ++ context.city.getD "Unknown" ++ ", " ++ context.state.getD "Unknown"
    ++ "\n- Post Goal: " ++ context.goal.getD "Unknown"
    ++ "\n- Platform: " ++ context.platform.getD "Unknown"
    ++ "\n\nYour job is to help refine social media captions based on user requests.\n- Keep the local, authentic voice\n- Maintain relevance to the location and goal\n- Follow the user\x27s editing instructions precisely\n- Be conversational and helpful\n\nCURRENT CAPTION:\n"
    ++ current_caption
    ++ "\n\nThe user will ask you to modify this caption. Make the requested changes and return ONLY the updated caption text, nothing else."

/-- Lines 43-51: messages = [system] ; then append each history entry in a
loop ; then append the new user instruction.  History entries are appended
verbatim, with no validation of role or content. -/
def build_chat_messages (current_caption user_instruction : String)
    (chat_history : List ChatMsg) (context : ChatContext) : List ChatMsg :=
  let messages := [ChatMsg.mk "system" (chat_system_prompt context current_caption)]
  let messages := chat_history.foldl (fun acc msg => acc ++ [msg]) messages
  messages ++ [ChatMsg.mk "user" user_instruction]

/-! ### Route handlers — routes.py, generate_caption / regenerate_caption

The handlers are embedded as state-passing functions over an environment of
oracle outcomes (one per external operation: upload write, media analysis,
database query/insert, location research, caption generation, quality
scoring).  Each oracle either returns a value or raises, mirroring the
exception paths the handlers guard against.  The run records the HTTP-level
response, whether the temporary upload file still exists, how many times it
was unlinked, and the ordered list of external calls issued. -/

inductive ExtCall where
  | analyze
  | research
  | genCap
  | regen
  | score
  | dbQuery
  | dbInsert
  deriving DecidableEq

inductive HandlerResponse where
  | success (caption : String) (scoreOk : Bool)
  | httpError (status : Nat) (detail : String)
  | unhandledError (msg : String)
  deriving DecidableEq

structure RunResult where
  response : HandlerResponse
  fileStillExists : Bool
  unlinkCount : Nat
  calls : List ExtCall
  deriving DecidableEq

/-- Fields of a researched (or cached) location row. -/
structure ResearchData where
  city : String
  state : String
  is_rural : Bool
  gpt_research : String
  chamber_info : String
  government_info : String
  deriving DecidableEq

/-- What research_location returns when it does not raise: either a dict
carrying an "error" key, or the research fields. -/
inductive ResearchReturn where
  | withError (msg : String)
  | ok (r : ResearchData)
  deriving DecidableEq

/-- An external operation either returns a value or raises with a message. -/
inductive Res (α : Type) where
  | ok (val : α)
  | exn (msg : String)
  deriving DecidableEq

/-- Outcome of writing the upload to disk: success, or an exception with or
without a (possibly partial) file left behind. -/
inductive WriteOutcome where
  | written
  | raisedFileKept
  | raisedNoFile
  deriving DecidableEq

structure HandlerEnv where
  apiKeyConfigured : Bool
  uploadWrite : WriteOutcome
  analyzeOutcome : Res String
  cachedLocation : Option ResearchData
  researchOutcome : Res ResearchReturn
  insertOutcome : Res Unit
  captionOutcome : Res String
  scoreOutcome : Res String
  deriving DecidableEq

structure GenRequest where
  filename : String
  goal : String
  address : String
  platform : String
  videoDescription : Option String
  deriving DecidableEq

structure RegenRequest where
  filename : String
  goal : String
  address : String
  platform : String
  previousCaption : String
  deriving DecidableEq

/-- `if not video_description` — missing or empty. -/
def descMissing : Option String → Bool
  | none => true
  | some s => s.isEmpty

/-- The temp-file state carried through a run: (file exists, unlink count). -/
abbrev FileState := Bool × Nat

/-- The except-blocks of generate_caption (and the cleanup in
regenerate_caption): `if media_path.exists(): media_path.unlink()`. -/
def cleanupIfExists (st : FileState) : FileState :=
  if st.1 then (false, st.2 + 1) else st

/-- The unconditional `media_path.unlink()` on the success path. -/
def unlinkNow (st : FileState) : FileState := (false, st.2 + 1)

/-- Steps 4-6 of generate_caption: generate, score (scoring failure is caught
and degraded, never fatal), unlink, respond. -/
def genSteps45 (env : HandlerEnv) (st : FileState) (calls : List ExtCall) : RunResult :=
  match env.captionOutcome with
  | .exn e =>
    let st' := cleanupIfExists st
    ⟨.httpError 500 e, st'.1, st'.2, calls ++ [.genCap]⟩
  | .ok caption =>
    let scoreOk := match env.scoreOutcome with | .ok _ => true | .exn _ => false
    let st' := unlinkNow st
    ⟨.success caption scoreOk, st'.1, st'.2, calls ++ [.genCap, .score]⟩

/-- Step 3 of generate_caption: cache lookup, else research + insert.  A
research exception or a failed insert propagates (HTTP 500); a returned
"error" key raises HTTPException 400. -/
def genStep3 (env : HandlerEnv) (st : FileState) (calls : List ExtCall) : RunResult :=
  match env.cachedLocation with
  | some _ => genSteps45 env st (calls ++ [.dbQuery])
  | none =>
    match env.researchOutcome with
    | .exn e =>
      let st' := cleanupIfExists st
      ⟨.httpError 500 e, st'.1, st'.2, calls ++ [.dbQuery, .research]⟩
    | .ok (.withError m) =>
      let st' := cleanupIfExists st
      ⟨.httpError 400 m, st'.1, st'.2, calls ++ [.dbQuery, .research]⟩
    | .ok (.ok _) =>
      match env.insertOutcome with
      | .exn e =>
        let st' := cleanupIfExists st
        ⟨.httpError 500 e, st'.1, st'.2, calls ++ [.dbQuery, .research, .dbInsert]⟩
      | .ok _ => genSteps45 env st (calls ++ [.dbQuery, .research, .dbInsert])

/-- routes.py, generate_caption. -/
def generate_caption_run (env : HandlerEnv) (req : GenRequest) : RunResult :=
  if env.apiKeyConfigured = false then
    ⟨.httpError 500 "OpenAI API key not configured. Please set OPENAI_API_KEY in environment.",
      false, 0, []⟩
  else
    match env.uploadWrite with
    | .raisedNoFile => ⟨.httpError 500 "upload write failed", false, 0, []⟩
    | .raisedFileKept =>
      let st := cleanupIfExists (true, 0)
      ⟨.httpError 500 "upload write failed", st.1, st.2, []⟩
    | .written =>
      let st : FileState := (true, 0)
      if is_video_file req.filename then
        if descMissing req.videoDescription then
          let st' := cleanupIfExists st
          ⟨.httpError 400 "Video description is required when uploading a video",
            st'.1, st'.2, []⟩
        else
          -- media_analysis is the user-supplied description; no AI call issued
          genStep3 env st []
      else
        match env.analyzeOutcome with
        | .exn e =>
          let st' := cleanupIfExists st
          ⟨.httpError 500 e, st'.1, st'.2, [.analyze]⟩
        | .ok _ => genStep3 env st [.analyze]

/-- routes.py, regenerate_caption.  This handler: never consults the cache,
always calls analyze_media (even for videos), has a single blanket
`except Exception` that re-raises everything (including the HTTPException 400
raised for a research "error") as HTTP 500, and — when the API-key check
raises before `media_path` is assigned — evaluates `media_path.exists()` on an
unbound local, so a NameError escapes the handler. -/
def regenerate_caption_run (env : HandlerEnv) (req : RegenRequest) : RunResult :=
  if env.apiKeyConfigured = false then
    ⟨.unhandledError "NameError: media_path is not defined", false, 0, []⟩
  else
    match env.uploadWrite with
    | .raisedNoFile => ⟨.httpError 500 "upload write failed", false, 0, []⟩
    | .raisedFileKept =>
      let st := cleanupIfExists (true, 0)
      ⟨.httpError 500 "upload write failed", st.1, st.2, []⟩
    | .written =>
      let st : FileState := (true, 0)
      match env.analyzeOutcome with
      | .exn e =>
        let st' := cleanupIfExists st
        ⟨.httpError 500 e, st'.1, st'.2, [.analyze]⟩
      | .ok _ =>
        match env.researchOutcome with
        | .exn e =>
          let st' := cleanupIfExists st
          ⟨.httpError 500 e, st'.1, st'.2, [.analyze, .research]⟩
        | .ok (.withError m) =>
          let st' := cleanupIfExists st
          ⟨.httpError 500 m, st'.1, st'.2, [.analyze, .research]⟩
        | .ok (.ok _) =>
          match env.captionOutcome with
          | .exn e =>
            let st' := cleanupIfExists st
            ⟨.httpError 500 e, st'.1, st'.2, [.analyze, .research, .regen]⟩
          | .ok caption =>
            match env.scoreOutcome with
            | .exn e =>
              let st' := cleanupIfExists st
              ⟨.httpError 500 e, st'.1, st'.2, [.analyze, .research, .regen, .score]⟩
            | .ok _ =>
              let st' := unlinkNow st
              ⟨.success caption true, st'.1, st'.2, [.analyze, .research, .regen, .score]⟩

/-- The scope of the cleanup guarantee: runs in which the upload was actually
written into the uploads directory (fully or partially). -/
def fileWasCreated (env : HandlerEnv) : Bool :=
  env.apiKeyConfigured && (env.uploadWrite ≠ WriteOutcome.raisedNoFile)

/-! ### Concrete fixtures used by witnesses and counterexamples -/

def envC1 : HandlerEnv :=
  { apiKeyConfigured := true, uploadWrite := .written,
    analyzeOutcome := .ok "a photo of trampolines",
    cachedLocation := none,
    researchOutcome := .ok (.ok ⟨"Springfield", "IL", false, "res", "res", "res"⟩),
    insertOutcome := .ok (), captionOutcome := .ok "a caption",
    scoreOutcome := .ok "scores" }

def reqC1 : GenRequest :=
  { filename := "photo.jpg", goal := "promote", address := "addr",
    platform := "Facebook", videoDescription := none }

def rreqC1 : RegenRequest :=
  { filename := "photo.jpg", goal := "promote", address := "addr",
    platform := "Facebook", previousCaption := "old caption" }

def envC2 : HandlerEnv :=
  { apiKeyConfigured := true, uploadWrite := .written,
    analyzeOutcome := .ok "a photo of trampolines",
    cachedLocation := none,
    researchOutcome := .ok (.ok ⟨"Springfield", "IL", false, "res", "res", "res"⟩),
    insertOutcome := .exn "UNIQUE constraint failed: locations.address",
    captionOutcome := .ok "a caption", scoreOutcome := .ok "scores" }

def reqC2 : GenRequest :=
  { filename := "photo.jpg", goal := "promote",
    address := "123 Main St, Springfield, IL 62701",
    platform := "Facebook", videoDescription := none }

def envC7 : HandlerEnv :=
  { apiKeyConfigured := true, uploadWrite := .written,
    analyzeOutcome := .ok "unused",
    cachedLocation := none,
    researchOutcome := .ok (.ok ⟨"Springfield", "IL", false, "res", "res", "res"⟩),
    insertOutcome := .ok (), captionOutcome := .ok "a caption",
    scoreOutcome := .ok "scores" }

def reqC7 : GenRequest :=
  { filename := "clip.mp4", goal := "promote", address := "addr",
    platform := "Instagram", videoDescription := none }

/-- Street/city segments free of commas (the `[^,]` class). -/
def NoComma (l : List Char) : Prop := ∀ x ∈ l, x ≠ ','

/-- The shape named by the claim about two-letter-state addresses:
`<street>, <City>, <ST> <zip>` — a comma, a comma-free city segment, a comma,
a 2-letter uppercase state token, then optional digits. -/
def Shape2Letter (addr street c : List Char) (a b : Char) (w1 w2 z : List Char) : Prop :=
  addr = street ++ [','] ++ c ++ [','] ++ w1 ++ [a, b] ++ w2 ++ z ∧
  NoComma c ∧ c ≠ [] ∧ isUpperChar a = true ∧ isUpperChar b = true ∧
  (∀ x ∈ w1, isWsChar x = true) ∧ (∀ x ∈ w2, isWsChar x = true) ∧
  (∀ x ∈ z, isDigitChar x = true)

/-- The shape named by the claim about full-state-name addresses: a trailing
`, <City>, <FullStateName> <zip>` whose state name resolves (case-insensitively)
in the fixed table to `abbr`. -/
def ShapeFullState (addr street c sn w1 sep z : List Char) (abbr : String) : Prop :=
  addr = street ++ [','] ++ c ++ [','] ++ w1 ++ sn ++ sep ++ z ∧
  NoComma c ∧ c ≠ [] ∧
  (∀ x ∈ w1, isWsChar x = true) ∧ (∀ x ∈ sep, isWsChar x = true) ∧
  (∀ x ∈ z, isDigitChar x = true) ∧
  (∀ x ∈ sn, (isAlphaChar x || isWsChar x) = true) ∧
  pstrip sn = sn ∧
  stateTable.lookup (String.mk (toLowerL sn)) = some abbr

/-! ## Helper lemmas -/

theorem startsWithL_iff (pat : List Char) :
    ∀ l, startsWithL l pat = true ↔ ∃ post, l = pat ++ post := by
  induction pat with
  | nil => intro l; simp [startsWithL]
  | cons p ps ih =>
    intro l
    cases l with
    | nil => simp [startsWithL]
    | cons c cs =>
      simp only [startsWithL, Bool.and_eq_true, decide_eq_true_eq]
      constructor
      · rintro ⟨rfl, h⟩
        obtain ⟨post, rfl⟩ := (ih cs).mp h
        exact ⟨post, rfl⟩
      · rintro ⟨post, h⟩
        rw [List.cons_append] at h
        injection h with h1 h2
        exact ⟨h1, (ih cs).mpr ⟨post, h2⟩⟩

theorem containsSub_iff (pat : List Char) :
    ∀ l, containsSub pat l = true ↔ ∃ pre post, l = pre ++ pat ++ post := by
  intro l
  induction l with
  | nil =>
    simp only [containsSub, startsWithL_iff]
    constructor
    · rintro ⟨post, h⟩
      exact ⟨[], post, by simpa using h⟩
    · rintro ⟨pre, post, h⟩
      rw [List.append_assoc] at h
      obtain ⟨-, h2⟩ := List.append_eq_nil.mp h.symm
      exact ⟨post, by simpa using h2.symm⟩
  | cons c cs ih =>
    simp only [containsSub, Bool.or_eq_true, startsWithL_iff, ih]
    constructor
    · rintro (⟨post, h⟩ | ⟨pre, post, h⟩)
      · exact ⟨[], post, by simpa using h⟩
      · exact ⟨c :: pre, post, by simp [h]⟩
    · rintro ⟨pre, post, h⟩
      cases pre with
      | nil => exact Or.inl ⟨post, by simpa using h⟩
      | cons x xs =>
        rw [List.cons_append, List.cons_append] at h
        injection h with h1 h2
        exact Or.inr ⟨xs, post, h2⟩

theorem endsWithL_iff (l suffix : List Char) :
    endsWithL l suffix = true ↔ ∃ pre, l = pre ++ suffix := by
  unfold endsWithL
  rw [startsWithL_iff]
  constructor
  · rintro ⟨post, h⟩
    refine ⟨post.reverse, ?_⟩
    have h2 := congrArg List.reverse h
    simpa using h2
  · rintro ⟨pre, rfl⟩
    exact ⟨pre.reverse, by simp⟩

theorem lookup_setField_self (fs : List (String × Json)) (k : String) (v : Json) :
    (setField fs k v).lookup k = some v := by
  induction fs with
  | nil => simp [setField, List.lookup]
  | cons hd tl ih =>
    obtain ⟨k', v'⟩ := hd
    by_cases h : k' = k
    · simp [setField, h, List.lookup]
    · simp only [setField, if_neg h, List.lookup]
      have hbeq : (k == k') = false := by
        simp [beq_iff_eq]
        exact fun hk => h hk.symm
      simp [hbeq, ih]

theorem foldl_append_eq {α : Type} (h : List α) :
    ∀ init : List α, h.foldl (fun acc m => acc ++ [m]) init = init ++ h := by
  induction h with
  | nil => intro init; simp
  | cons x xs ih =>
    intro init
    rw [List.foldl_cons, ih, List.append_assoc]
    simp

/-! ## C10 — chat message assembly -/

/-- C10: chat_edit_caption builds the model message list as exactly one
system message (context + current caption), followed by every entry of
chat_history unchanged and in order, followed by one user message with the
new instruction; history entries are included verbatim, with no validation of
role or content (arbitrary strings pass through). -/
theorem chat_messages_structure (current_caption user_instruction : String)
    (chat_history : List ChatMsg) (context : ChatContext) :
    build_chat_messages current_caption user_instruction chat_history context =
      ChatMsg.mk "system" (chat_system_prompt context current_caption) ::
        (chat_history ++ [ChatMsg.mk "user" user_instruction]) ∧
    (build_chat_messages current_caption user_instruction chat_history context).length =
      chat_history.length + 2 := by
  have hb : build_chat_messages current_caption user_instruction chat_history context =
      ChatMsg.mk "system" (chat_system_prompt context current_caption) ::
        (chat_history ++ [ChatMsg.mk "user" user_instruction]) := by
    simp [build_chat_messages, foldl_append_eq]
  refine ⟨hb, ?_⟩
  rw [hb]
  simp [List.length_append]

/-! ## C9 — media dispatch is total and filename-only -/

/-- C9: analyze_media dispatches solely on the filename suffix: the chosen
route is independent of the file content, and it is the video route exactly
when the lowercased path ends in one of the eight video extensions — every
other path goes down the image-analysis route. -/
theorem media_dispatch_filename_only (fs1 fs2 : String → List Nat) (path : String) :
    (analyze_media_model fs1 path).1 = (analyze_media_model fs2 path).1 ∧
    ((analyze_media_model fs1 path).1 = MediaRoute.video ↔
      ∃ ext ∈ video_extensions, ∃ pre, toLowerL path.data = pre ++ ext.data) ∧
    (¬ (∃ ext ∈ video_extensions, ∃ pre, toLowerL path.data = pre ++ ext.data) →
      (analyze_media_model fs1 path).1 = MediaRoute.image) := by
  have hchar : ∀ b : Bool,
      (analyze_media_model fs1 path).1 = (if is_video_file path then MediaRoute.video else MediaRoute.image) := by
    intro _; unfold analyze_media_model
    by_cases h : is_video_file path <;> simp [h]
  have hiff : is_video_file path = true ↔
      ∃ ext ∈ video_extensions, ∃ pre, toLowerL path.data = pre ++ ext.data := by
    unfold is_video_file
    rw [List.any_eq_true]
    constructor
    · rintro ⟨ext, hmem, hend⟩
      exact ⟨ext, hmem, (endsWithL_iff _ _).mp hend⟩
    · rintro ⟨ext, hmem, hpre⟩
      exact ⟨ext, hmem, (endsWithL_iff _ _).mpr hpre⟩
  constructor
  · unfold analyze_media_model
    by_cases h : is_video_file path <;> simp [h]
  constructor
  · rw [hchar true]
    by_cases h : is_video_file path
    · simp [h, hiff.mp h]
    · simp only [h, if_false]
      constructor
      · intro hc; exact absurd hc (by simp)
      · intro hex; exact absurd (hiff.mpr hex) h
  · intro hnot
    rw [hchar true]
    have : is_video_file path = false := by
      by_contra hc
      exact hnot (hiff.mp (by revert hc; cases is_video_file path <;> simp))
    simp [this]

/-! ## C8 — rurality heuristic -/

/-- C8: a researched narrative is classified rural exactly when its lowercased
text contains the substring "rural" and does not contain the substring
"suburban"; the classification is a pure function of the narrative text. -/
theorem rural_heuristic_characterization (s : String) :
    is_rural_heuristic s = true ↔
      ((∃ pre post, toLowerL s.data = pre ++ "rural".data ++ post) ∧
       ¬ ∃ pre post, toLowerL s.data = pre ++ "suburban".data ++ post) := by
  unfold is_rural_heuristic
  rw [Bool.and_eq_true, Bool.not_eq_true']
  constructor
  · rintro ⟨h1, h2⟩
    refine ⟨(containsSub_iff _ _).mp h1, ?_⟩
    intro hex
    have hc := (containsSub_iff _ _).mpr hex
    rw [h2] at hc
    exact Bool.false_ne_true hc
  · rintro ⟨h1, h2⟩
    refine ⟨(containsSub_iff _ _).mpr h1, ?_⟩
    cases hc : containsSub "suburban".data (toLowerL s.data) with
    | false => rfl
    | true => exact absurd ((containsSub_iff _ _).mp hc) h2

/-! ## C5 — quality tier is a pure function of overall_score -/

/-- C5: quality_tier is a pure deterministic function of the parsed score's
overall_score field: ≥90 Excellent, 80-89 Good, 70-79 Fair, below 70
Needs Improvement; in particular 95, 82, 71 and 40 map to the four tiers, and
on the scorer's success path the returned object's quality_tier field is
exactly this function of the overall_score field. -/
theorem quality_tier_of_overall_score (n : Int) (parse : String → Except String Json)
    (raw : String) (fields : List (String × Json)) :
    (90 ≤ n → qualityTier n = "Excellent") ∧
    (80 ≤ n ∧ n < 90 → qualityTier n = "Good") ∧
    (70 ≤ n ∧ n < 80 → qualityTier n = "Fair") ∧
    (n < 70 → qualityTier n = "Needs Improvement") ∧
    (parse (stripFences (String.mk (pstrip raw.data))) = Except.ok (Json.obj fields) →
      fields.lookup "overall_score" = some (Json.num n) →
      jLookup (score_caption_model parse (Except.ok raw)) "quality_tier" =
        some (Json.str (qualityTier n))) ∧
    qualityTier 95 = "Excellent" ∧ qualityTier 82 = "Good" ∧
    qualityTier 71 = "Fair" ∧ qualityTier 40 = "Needs Improvement" := by
  refine ⟨?_, ?_, ?_, ?_, ?_, by rfl, by rfl, by rfl, by rfl⟩
  · intro h; unfold qualityTier; rw [if_pos (by omega)]
  · intro h; unfold qualityTier; rw [if_neg (by omega), if_pos (by omega)]
  · intro h; unfold qualityTier; rw [if_neg (by omega), if_neg (by omega), if_pos (by omega)]
  · intro h; unfold qualityTier
    rw [if_neg (by omega), if_neg (by omega), if_neg (by omega)]
  · intro hparse hlook
    simp only [score_caption_model]
    rw [hparse]
    simp only [hlook]
    simp [jLookup, lookup_setField_self]

/-- Witness for C5: a concrete parsed score with overall_score 95 is tiered
"Excellent" by the scorer. -/
theorem quality_tier_of_overall_score_witness :
    jLookup
      (score_caption_model
        (fun _ => Except.ok (Json.obj [("overall_score", Json.num 95)]))
        (Except.ok "x"))
      "quality_tier" = some (Json.str "Excellent") := by
  have h := quality_tier_of_overall_score 95
    (fun _ => Except.ok (Json.obj [("overall_score", Json.num 95)])) "x"
    [("overall_score", Json.num 95)]
  have h5 := h.2.2.2.2.1 rfl rfl
  exact h5.trans (by norm_num [qualityTier])

/-! ## C6 — scorer failure always degrades to the fixed fallback -/

/-- C6: whenever the scoring request fails, or the response body is not valid
JSON even after code-fence stripping, score_caption returns (never raises) the
fixed fallback score set — every numeric dimension 75, quality_tier "Good",
recommendation "Review" — annotated with the error text. -/
theorem score_caption_fallback (parse : String → Except String Json)
    (e raw pe : String) :
    (score_caption_model parse (Except.error e) = fallback_scores e) ∧
    (parse (stripFences (String.mk (pstrip raw.data))) = Except.error pe →
      score_caption_model parse (Except.ok raw) = fallback_scores pe) ∧
    jLookup (fallback_scores e) "brand_consistency" = some (Json.num 75) ∧
    jLookup (fallback_scores e) "local_relevance" = some (Json.num 75) ∧
    jLookup (fallback_scores e) "goal_alignment" = some (Json.num 75) ∧
    jLookup (fallback_scores e) "overall_quality" = some (Json.num 75) ∧
    jLookup (fallback_scores e) "overall_score" = some (Json.num 75) ∧
    jLookup (fallback_scores e) "quality_tier" = some (Json.str "Good") ∧
    jLookup (fallback_scores e) "recommendation" = some (Json.str "Review") ∧
    jLookup (fallback_scores e) "error" = some (Json.str e) := by
  refine ⟨rfl, ?_, rfl, rfl, rfl, rfl, rfl, rfl, rfl, rfl⟩
  intro hparse
  simp only [score_caption_model]
  rw [hparse]

/-- Witness for C6: a response whose body parses to nothing (the parser
rejects it) yields exactly the fallback, with recommendation "Review". -/
theorem score_caption_fallback_witness :
    score_caption_model (fun _ => Except.error "Expecting value: line 1 column 1")
        (Except.ok "this is not JSON") =
      fallback_scores "Expecting value: line 1 column 1" ∧
    jLookup
        (score_caption_model (fun _ => Except.error "Expecting value: line 1 column 1")
          (Except.ok "this is not JSON"))
        "recommendation" = some (Json.str "Review") := by
  have h := score_caption_fallback
    (fun _ => Except.error "Expecting value: line 1 column 1")
    "Expecting value: line 1 column 1" "this is not JSON"
    "Expecting value: line 1 column 1"
  have h2 := h.2.1 rfl
  exact ⟨h2, by rw [h2]; exact h.2.2.2.2.2.2.2.2.1⟩

/-! ## C1 — the temporary upload file is always removed, exactly once -/

theorem genSteps45_cleanup (env : HandlerEnv) (calls : List ExtCall) :
    (genSteps45 env (true, 0) calls).fileStillExists = false ∧
    (genSteps45 env (true, 0) calls).unlinkCount = 1 := by
  unfold genSteps45
  cases env.captionOutcome with
  | exn e => simp [cleanupIfExists]
  | ok c => cases env.scoreOutcome <;> simp [unlinkNow]

theorem genStep3_cleanup (env : HandlerEnv) (calls : List ExtCall) :
    (genStep3 env (true, 0) calls).fileStillExists = false ∧
    (genStep3 env (true, 0) calls).unlinkCount = 1 := by
  unfold genStep3
  cases env.cachedLocation with
  | some row => exact genSteps45_cleanup env _
  | none =>
    cases hres : env.researchOutcome with
    | exn e => simp [cleanupIfExists]
    | ok rr =>
      cases rr with
      | withError m => simp [cleanupIfExists]
      | ok r =>
        cases env.insertOutcome with
        | exn e => simp [cleanupIfExists]
        | ok u => exact genSteps45_cleanup env _

/-- C1: for every /generate-caption or /regenerate-caption request that
actually writes the uploaded media file into the uploads directory, the
temporary file no longer exists when the handler returns — on the success
path and on every failure path alike — and it was unlinked exactly once. -/
theorem temp_upload_removed_exactly_once (env : HandlerEnv) (req : GenRequest)
    (rreq : RegenRequest) (hcreated : fileWasCreated env = true) :
    ((generate_caption_run env req).fileStillExists = false ∧
     (generate_caption_run env req).unlinkCount = 1) ∧
    ((regenerate_caption_run env rreq).fileStillExists = false ∧
     (regenerate_caption_run env rreq).unlinkCount = 1) := by
  unfold fileWasCreated at hcreated
  rw [Bool.and_eq_true] at hcreated
  obtain ⟨hkey, hwrite⟩ := hcreated
  rw [decide_eq_true_eq] at hwrite
  constructor
  · unfold generate_caption_run
    rw [hkey]
    simp only [Bool.true_eq_false, if_false]
    cases hw : env.uploadWrite with
    | raisedNoFile => exact absurd hw hwrite
    | raisedFileKept => simp [cleanupIfExists]
    | written =>
      by_cases hv : is_video_file req.filename
      · simp only [hv, if_true]
        by_cases hd : descMissing req.videoDescription
        · simp [hd, cleanupIfExists]
        · simp only [hd, Bool.false_eq_true, if_false]
          exact genStep3_cleanup env _
      · simp only [hv, Bool.false_eq_true, if_false]
        cases env.analyzeOutcome with
        | exn e => simp [cleanupIfExists]
        | ok a => exact genStep3_cleanup env _
  · unfold regenerate_caption_run
    rw [hkey]
    simp only [Bool.true_eq_false, if_false]
    cases hw : env.uploadWrite with
    | raisedNoFile => exact absurd hw hwrite
    | raisedFileKept => simp [cleanupIfExists]
    | written =>
      cases env.analyzeOutcome with
      | exn e => simp [cleanupIfExists]
      | ok a =>
        cases env.researchOutcome with
        | exn e => simp [cleanupIfExists]
        | ok rr =>
          cases rr with
          | withError m => simp [cleanupIfExists]
          | ok r =>
            cases env.captionOutcome with
            | exn e => simp [cleanupIfExists]
            | ok c =>
              cases env.scoreOutcome with
              | exn e => simp [cleanupIfExists]
              | ok s => simp [unlinkNow]

/-- Witness for C1 at a concrete environment and requests. -/
theorem temp_upload_removed_exactly_once_witness :
    ((generate_caption_run envC1 reqC1).fileStillExists = false ∧
     (generate_caption_run envC1 reqC1).unlinkCount = 1) ∧
    ((regenerate_caption_run envC1 rreqC1).fileStillExists = false ∧
     (regenerate_caption_run envC1 rreqC1).unlinkCount = 1) :=
  temp_upload_removed_exactly_once envC1 reqC1 rreqC1 rfl

/-! ## C7 — video upload without a description fails with 400, no AI call -/

/-- C7: a /generate-caption request whose filename has a recognized video
extension and whose video_description is missing fails with HTTP 400 before
any media-analysis call is issued to the AI provider (given configured
credentials and a successful upload write, the only steps preceding the
check). -/
theorem video_without_description_rejected (env : HandlerEnv) (req : GenRequest)
    (hkey : env.apiKeyConfigured = true) (hw : env.uploadWrite = WriteOutcome.written)
    (hvid : is_video_file req.filename = true) (hdesc : req.videoDescription = none) :
    (generate_caption_run env req).response =
      HandlerResponse.httpError 400 "Video description is required when uploading a video" ∧
    ExtCall.analyze ∉ (generate_caption_run env req).calls := by
  unfold generate_caption_run
  rw [hkey, hw]
  simp [hvid, hdesc, descMissing, cleanupIfExists]

/-- Witness for C7: a concrete .mp4 upload without a description. -/
theorem video_without_description_rejected_witness :
    (generate_caption_run envC7 reqC7).response =
      HandlerResponse.httpError 400 "Video description is required when uploading a video" ∧
    ExtCall.analyze ∉ (generate_caption_run envC7 reqC7).calls :=
  video_without_description_rejected envC7 reqC7 rfl rfl (by decide) rfl

/-! ## C2 — a failed location insert is NOT recovered by a re-read -/

/-- Counterexample to C2: at a concrete first-time request whose Location
insert fails with a uniqueness-constraint violation, the handler does not
re-read and complete successfully; the exception propagates and the request
fails with HTTP 500 (the only database read is the initial cache lookup). -/
theorem location_insert_conflict_cex :
    (generate_caption_run envC2 reqC2).response =
      HandlerResponse.httpError 500 "UNIQUE constraint failed: locations.address" ∧
    (generate_caption_run envC2 reqC2).calls =
      [ExtCall.analyze, ExtCall.dbQuery, ExtCall.research, ExtCall.dbInsert] := by
  constructor <;> rfl

/-- Amended C2: when a first-time /generate-caption request's Location insert
fails (in particular with a uniqueness-constraint violation from a concurrent
request), the handler performs no re-read — the initial cache lookup stays the
only database query — and the request fails with HTTP 500 carrying the
database error; the temporary upload is still cleaned up. -/
theorem location_insert_conflict_behavior (env : HandlerEnv) (req : GenRequest)
    (a e : String) (r : ResearchData)
    (hkey : env.apiKeyConfigured = true) (hw : env.uploadWrite = WriteOutcome.written)
    (hvid : is_video_file req.filename = false)
    (han : env.analyzeOutcome = Res.ok a)
    (hcache : env.cachedLocation = none)
    (hres : env.researchOutcome = Res.ok (ResearchReturn.ok r))
    (hins : env.insertOutcome = Res.exn e) :
    (generate_caption_run env req).response = HandlerResponse.httpError 500 e ∧
    (generate_caption_run env req).calls =
      [ExtCall.analyze, ExtCall.dbQuery, ExtCall.research, ExtCall.dbInsert] ∧
    (generate_caption_run env req).fileStillExists = false ∧
    (generate_caption_run env req).unlinkCount = 1 := by
  unfold generate_caption_run genStep3
  rw [hkey, hw]
  simp [hvid, han, hcache, hres, hins, cleanupIfExists]

/-- Witness for the amended C2 at the concrete conflicting environment. -/
theorem location_insert_conflict_behavior_witness :
    (generate_caption_run envC2 reqC2).response =
      HandlerResponse.httpError 500 "UNIQUE constraint failed: locations.address" ∧
    (generate_caption_run envC2 reqC2).calls =
      [ExtCall.analyze, ExtCall.dbQuery, ExtCall.research, ExtCall.dbInsert] ∧
    (generate_caption_run envC2 reqC2).fileStillExists = false ∧
    (generate_caption_run envC2 reqC2).unlinkCount = 1 :=
  location_insert_conflict_behavior envC2 reqC2 "a photo of trampolines"
    "UNIQUE constraint failed: locations.address"
    ⟨"Springfield", "IL", false, "res", "res", "res"⟩
    rfl rfl (by decide) rfl rfl rfl rfl

/-! ## Character-class and scanning lemmas for the address parser -/

theorem ws_cases (c : Char) (h : isWsChar c = true) :
    c = ' ' ∨ c = '\t' ∨ c = '\n' ∨ c = '\r' ∨ c = '\x0b' ∨ c = '\x0c' := by
  unfold isWsChar at h
  simp only [Bool.or_eq_true, decide_eq_true_eq] at h
  tauto

theorem ws_false_of_upper (c : Char) (h : isUpperChar c = true) : isWsChar c = false := by
  cases hw : isWsChar c with
  | false => rfl
  | true =>
    exfalso
    rcases ws_cases c hw with rfl | rfl | rfl | rfl | rfl | rfl <;> exact absurd h (by decide)

theorem ne_comma_of_ws (c : Char) (h : isWsChar c = true) : c ≠ ',' := by
  rcases ws_cases c h with rfl | rfl | rfl | rfl | rfl | rfl <;> decide

theorem ne_comma_of_class (c : Char) (h : (isAlphaChar c || isWsChar c) = true) : c ≠ ',' := by
  rintro rfl
  exact absurd h (by decide)

theorem ne_comma_of_digit (c : Char) (h : isDigitChar c = true) : c ≠ ',' := by
  rintro rfl
  exact absurd h (by decide)

theorem class_of_ws (c : Char) (h : isWsChar c = true) :
    (isAlphaChar c || isWsChar c) = true := by
  rw [h, Bool.or_true]

theorem class_false_of_digit (d : Char) (h : isDigitChar d = true) :
    (isAlphaChar d || isWsChar d) = false := by
  unfold isDigitChar at h
  rw [Bool.and_eq_true, decide_eq_true_eq, decide_eq_true_eq] at h
  obtain ⟨h0, h9⟩ := h
  cases hcl : (isAlphaChar d || isWsChar d) with
  | false => rfl
  | true =>
    exfalso
    rw [Bool.or_eq_true] at hcl
    rcases hcl with hA | hW
    · unfold isAlphaChar at hA
      rw [Bool.or_eq_true, Bool.and_eq_true, Bool.and_eq_true] at hA
      simp only [decide_eq_true_eq] at hA
      rcases hA with ⟨hA1, -⟩ | ⟨ha1, -⟩
      · exact absurd (le_trans hA1 h9) (by decide)
      · exact absurd (le_trans ha1 h9) (by decide)
    · rcases ws_cases d hW with rfl | rfl | rfl | rfl | rfl | rfl <;>
        exact absurd h0 (by decide)

theorem dropWhile_append_of_all {p : Char → Bool} (xs ys : List Char)
    (h : ∀ x ∈ xs, p x = true) : (xs ++ ys).dropWhile p = ys.dropWhile p := by
  induction xs with
  | nil => rfl
  | cons x xt ih =>
    rw [List.cons_append, List.dropWhile_cons, if_pos (h x (List.mem_cons_self x xt))]
    exact ih (fun y hy => h y (List.mem_cons_of_mem x hy))

theorem dropWhile_cons_of_neg {p : Char → Bool} (x : Char) (xs : List Char)
    (h : p x = false) : (x :: xs).dropWhile p = x :: xs := by
  rw [List.dropWhile_cons, if_neg (by simp [h])]

theorem takeWhile_append_of_all {p : Char → Bool} (xs ys : List Char)
    (h : ∀ x ∈ xs, p x = true) : (xs ++ ys).takeWhile p = xs ++ ys.takeWhile p := by
  induction xs with
  | nil => rfl
  | cons x xt ih =>
    rw [List.cons_append, List.takeWhile_cons, if_pos (h x (List.mem_cons_self x xt))]
    rw [ih (fun y hy => h y (List.mem_cons_of_mem x hy)), List.cons_append]

theorem takeWhile_nil_of_neg {p : Char → Bool} (x : Char) (xs : List Char)
    (h : p x = false) : (x :: xs).takeWhile p = [] := by
  rw [List.takeWhile_cons, if_neg (by simp [h])]

theorem splitAtFirstComma?_append (c tail : List Char) (hc : NoComma c) :
    splitAtFirstComma? (c ++ ',' :: tail) = some (c, tail) := by
  induction c with
  | nil => simp [splitAtFirstComma?]
  | cons x xs ih =>
    rw [List.cons_append]
    unfold splitAtFirstComma?
    rw [if_neg (hc x (List.mem_cons_self x xs))]
    rw [ih (fun y hy => hc y (List.mem_cons_of_mem x hy))]

theorem splitAtFirstComma?_none (l : List Char) (h : NoComma l) :
    splitAtFirstComma? l = none := by
  induction l with
  | nil => rfl
  | cons x xs ih =>
    unfold splitAtFirstComma?
    rw [if_neg (h x (List.mem_cons_self x xs))]
    rw [ih (fun y hy => h y (List.mem_cons_of_mem x hy))]

theorem pattern1Core_cons_ne (x : Char) (xs : List Char) (hx : x ≠ ',') :
    pattern1Core (x :: xs) = pattern1Core xs := by
  simp only [pattern1Core]
  rw [if_neg hx]

theorem pattern2Core_cons_ne (x : Char) (xs : List Char) (hx : x ≠ ',') :
    pattern2Core (x :: xs) = pattern2Core xs := by
  simp only [pattern2Core]
  rw [if_neg hx]

theorem pattern1Core_skip (pre l : List Char) (h : NoComma pre) :
    pattern1Core (pre ++ l) = pattern1Core l := by
  induction pre with
  | nil => rfl
  | cons x xs ih =>
    rw [List.cons_append, pattern1Core_cons_ne x (xs ++ l) (h x (List.mem_cons_self x xs))]
    exact ih (fun y hy => h y (List.mem_cons_of_mem x hy))

theorem pattern2Core_skip (pre l : List Char) (h : NoComma pre) :
    pattern2Core (pre ++ l) = pattern2Core l := by
  induction pre with
  | nil => rfl
  | cons x xs ih =>
    rw [List.cons_append, pattern2Core_cons_ne x (xs ++ l) (h x (List.mem_cons_self x xs))]
    exact ih (fun y hy => h y (List.mem_cons_of_mem x hy))

theorem upper2After_pos (w1 : List Char) (a b : Char) (rest : List Char)
    (hw1 : ∀ x ∈ w1, isWsChar x = true)
    (ha : isUpperChar a = true) (hb : isUpperChar b = true) :
    upper2After (w1 ++ a :: b :: rest) = some (a, b) := by
  unfold upper2After dropWs
  rw [dropWhile_append_of_all w1 _ hw1, dropWhile_cons_of_neg a _ (ws_false_of_upper a ha)]
  simp [ha, hb]

theorem upper2After_neg (w1 : List Char) (s0 s1 : Char) (rest : List Char)
    (hw1 : ∀ x ∈ w1, isWsChar x = true)
    (hs0 : isWsChar s0 = false)
    (hns : (isUpperChar s0 && isUpperChar s1) = false) :
    upper2After (w1 ++ s0 :: s1 :: rest) = none := by
  unfold upper2After dropWs
  rw [dropWhile_append_of_all w1 _ hw1, dropWhile_cons_of_neg s0 _ hs0]
  simp [hns]

theorem pstrip_pair (a b : Char) (ha : isWsChar a = false) (hb : isWsChar b = false) :
    pstrip [a, b] = [a, b] := by
  unfold pstrip
  rw [dropWhile_cons_of_neg a _ ha]
  have : ([a, b] : List Char).reverse = [b, a] := by simp
  rw [this, dropWhile_cons_of_neg b _ hb]
  simp

theorem dropWhile_length_le (p : Char → Bool) (l : List Char) :
    (l.dropWhile p).length ≤ l.length := by
  induction l with
  | nil => simp
  | cons x xs ih =>
    rw [List.dropWhile_cons]
    by_cases h : p x = true
    · rw [if_pos h]
      simp only [List.length_cons]
      omega
    · rw [if_neg (by simp [h])]

theorem dropWhile_eq_self_of_length (p : Char → Bool) (l : List Char)
    (h : (l.dropWhile p).length = l.length) : l.dropWhile p = l := by
  induction l with
  | nil => rfl
  | cons x xs ih =>
    rw [List.dropWhile_cons] at h ⊢
    by_cases hp : p x = true
    · rw [if_pos hp] at h
      have := dropWhile_length_le p xs
      simp only [List.length_cons] at h
      omega
    · rw [if_neg (by simp [hp])]

theorem dropWhile_reverse_of_pstrip (l : List Char) (hl : pstrip l = l) :
    l.reverse.dropWhile isWsChar = l.reverse := by
  unfold pstrip at hl
  have hlen := congrArg List.length hl
  rw [List.length_reverse] at hlen
  have h1 : ((l.dropWhile isWsChar).reverse.dropWhile isWsChar).length ≤
      (l.dropWhile isWsChar).length := by
    have h0 := dropWhile_length_le isWsChar (l.dropWhile isWsChar).reverse
    simpa using h0
  have h2 : (l.dropWhile isWsChar).length ≤ l.length := dropWhile_length_le isWsChar l
  have hd : l.dropWhile isWsChar = l := dropWhile_eq_self_of_length isWsChar l (by omega)
  rw [hd] at hl
  have h3 := congrArg List.reverse hl
  rw [List.reverse_reverse] at h3
  exact h3

theorem pattern1_match (street c : List Char) (a b : Char) (w1 rest : List Char)
    (hstreet : NoComma street) (hc : NoComma c) (hcne : c ≠ [])
    (ha : isUpperChar a = true) (hb : isUpperChar b = true)
    (hw1 : ∀ x ∈ w1, isWsChar x = true) :
    pattern1Core (street ++ ',' :: (c ++ ',' :: (w1 ++ a :: b :: rest))) = some (c, [a, b]) := by
  rw [pattern1Core_skip street _ hstreet]
  simp only [pattern1Core]
  rw [if_pos trivial, splitAtFirstComma?_append c _ hc]
  simp only [if_neg hcne]
  rw [upper2After_pos w1 a b rest hw1 ha hb]

theorem pattern1_none (street c : List Char) (s0 s1 : Char) (tail2 w1 : List Char)
    (hstreet : NoComma street) (hc : NoComma c) (hcne : c ≠ [])
    (hw1 : ∀ x ∈ w1, isWsChar x = true)
    (hs0 : isWsChar s0 = false)
    (hns : (isUpperChar s0 && isUpperChar s1) = false)
    (htail : NoComma (w1 ++ s0 :: s1 :: tail2)) :
    pattern1Core (street ++ ',' :: (c ++ ',' :: (w1 ++ s0 :: s1 :: tail2))) = none := by
  rw [pattern1Core_skip street _ hstreet]
  simp only [pattern1Core]
  rw [if_pos trivial, splitAtFirstComma?_append c _ hc]
  simp only [if_neg hcne]
  rw [upper2After_neg w1 s0 s1 tail2 hw1 hs0 hns]
  rw [pattern1Core_skip c _ hc]
  simp only [pattern1Core]
  rw [if_pos trivial, splitAtFirstComma?_none _ htail]

theorem pattern2_match (street c : List Char) (s0 : Char) (stl sep z w1 : List Char)
    (hstreet : NoComma street) (hc : NoComma c) (hcne : c ≠ [])
    (hw1 : ∀ x ∈ w1, isWsChar x = true)
    (hsn : ∀ x ∈ (s0 :: stl), (isAlphaChar x || isWsChar x) = true)
    (hs0 : isWsChar s0 = false)
    (hsep : ∀ x ∈ sep, isWsChar x = true)
    (hz : ∀ x ∈ z, isDigitChar x = true) :
    pattern2Core (street ++ ',' :: (c ++ ',' :: (w1 ++ ((s0 :: stl) ++ (sep ++ z))))) =
      some (c, (s0 :: stl) ++ sep) := by
  rw [pattern2Core_skip street _ hstreet]
  simp only [pattern2Core]
  rw [if_pos trivial, splitAtFirstComma?_append c _ hc]
  simp only [if_neg hcne]
  have htake : (w1 ++ ((s0 :: stl) ++ (sep ++ z))).takeWhile isWsChar = w1 := by
    rw [takeWhile_append_of_all w1 _ hw1]
    rw [List.cons_append, takeWhile_nil_of_neg s0 _ hs0, List.append_nil]
  have hdrop : (w1 ++ ((s0 :: stl) ++ (sep ++ z))).dropWhile isWsChar =
      (s0 :: stl) ++ (sep ++ z) := by
    rw [dropWhile_append_of_all w1 _ hw1]
    rw [List.cons_append, dropWhile_cons_of_neg s0 _ hs0, ← List.cons_append]
  have hrun : (((s0 :: stl) ++ (sep ++ z)).takeWhile fun ch => isAlphaChar ch || isWsChar ch) =
      (s0 :: stl) ++ sep := by
    rw [takeWhile_append_of_all (s0 :: stl) _ hsn]
    rw [takeWhile_append_of_all sep _ (fun x hx => class_of_ws x (hsep x hx))]
    cases z with
    | nil => simp
    | cons d ds =>
      rw [takeWhile_nil_of_neg d ds (class_false_of_digit d (hz d (List.mem_cons_self d ds)))]
      simp
  rw [htake, hdrop, hrun]
  have hne : (s0 :: stl) ++ sep ≠ [] := by simp
  rw [if_pos hne]

theorem pstrip_append_ws (s0 : Char) (stl sep : List Char)
    (hs0 : isWsChar s0 = false)
    (htrim : pstrip (s0 :: stl) = s0 :: stl)
    (hsep : ∀ x ∈ sep, isWsChar x = true) :
    pstrip ((s0 :: stl) ++ sep) = s0 :: stl := by
  unfold pstrip
  rw [List.cons_append, dropWhile_cons_of_neg s0 _ hs0]
  have hrev : (s0 :: (stl ++ sep)).reverse = sep.reverse ++ (s0 :: stl).reverse := by
    rw [← List.cons_append, List.reverse_append]
  rw [hrev, dropWhile_append_of_all sep.reverse _
    (fun x hx => hsep x (List.mem_reverse.mp hx))]
  rw [dropWhile_reverse_of_pstrip (s0 :: stl) htrim]
  simp

/-! ## C3 — addresses of the shape `<street>, <City>, <ST> <zip>` -/

/-- Amended C3: for every address of the shape `<street>, <City>, <ST> <zip>`
(a comma, a comma-free city segment, a comma, a 2-letter uppercase state
token, then optional digits) in which the street portion itself contains no
comma, extract_city_state_from_address returns exactly the stripped city and
the two-letter state.  (Without the street restriction the leftmost regex
match can fire inside the street — see the counterexample.) -/
theorem parse_two_letter_state (gpt : Option GptOutcome) (address : String)
    (street c : List Char) (a b : Char) (w1 w2 z : List Char)
    (hshape : Shape2Letter address.data street c a b w1 w2 z)
    (hstreet : NoComma street) :
    extract_city_state_from_address gpt address =
      (String.mk (pstrip c), String.mk [a, b]) := by
  obtain ⟨haddr, hc, hcne, ha, hb, hw1, hw2, hz⟩ := hshape
  have hform : address.data = street ++ ',' :: (c ++ ',' :: (w1 ++ a :: b :: (w2 ++ z))) := by
    rw [haddr]; simp
  have hp1 : pattern1Core address.data = some (c, [a, b]) := by
    rw [hform]
    exact pattern1_match street c a b w1 (w2 ++ z) hstreet hc hcne ha hb hw1
  have hab : pstrip [a, b] = [a, b] :=
    pstrip_pair a b (ws_false_of_upper a ha) (ws_false_of_upper b hb)
  simp only [extract_city_state_from_address, hp1, hab]

/-- Witness for the amended C3 at a concrete well-formed address. -/
theorem parse_two_letter_state_witness :
    extract_city_state_from_address none "123 Main St, Springfield, IL 62701" =
      ("Springfield", "IL") := by
  have h := parse_two_letter_state none "123 Main St, Springfield, IL 62701"
    "123 Main St".data " Springfield".data 'I' 'L' " ".data " ".data "62701".data
    (by unfold Shape2Letter NoComma; decide) (by unfold NoComma; decide)
  exact h.trans (by decide)

/-- Counterexample to C3 as stated: the address
`"1, X, AB Rd, Omaha, NE 68102"` has the claimed shape (street `"1, X, AB Rd"`,
city `Omaha`, state `NE`, zip `68102`), yet the parser returns
`("X", "AB")` — the leftmost regex match fires inside the comma-containing
street — instead of `("Omaha", "NE")`. -/
theorem parse_two_letter_state_cex :
    Shape2Letter "1, X, AB Rd, Omaha, NE 68102".data "1, X, AB Rd".data
      " Omaha".data 'N' 'E' " ".data " ".data "68102".data ∧
    extract_city_state_from_address none "1, X, AB Rd, Omaha, NE 68102" = ("X", "AB") ∧
    extract_city_state_from_address none "1, X, AB Rd, Omaha, NE 68102" ≠ ("Omaha", "NE") := by
  refine ⟨by unfold Shape2Letter NoComma; decide, by decide, by decide⟩

/-! ## C4 — addresses with a trailing full state name -/

/-- Amended C4: for every address of the form `<street>, <City>, <FullStateName>
<zip>` whose street contains no comma and whose state name is not written with
its first two letters both uppercase, extract_city_state_from_address returns
the city together with the 2-letter abbreviation from the fixed table, without
absorbing the zip digits.  (Without those two restrictions the claim fails:
an all-caps state name is captured by the 2-letter-state regex first, and a
comma-bearing street hijacks the leftmost match — see the counterexample.) -/
theorem parse_full_state_name (gpt : Option GptOutcome) (address : String)
    (street c : List Char) (s0 s1 : Char) (stl w1 sep z : List Char) (abbr : String)
    (hshape : ShapeFullState address.data street c (s0 :: s1 :: stl) w1 sep z abbr)
    (hstreet : NoComma street)
    (hs0 : isWsChar s0 = false)
    (hns : (isUpperChar s0 && isUpperChar s1) = false) :
    extract_city_state_from_address gpt address = (String.mk (pstrip c), abbr) := by
  obtain ⟨haddr, hc, hcne, hw1, hsep, hz, hsn, htrim, hlook⟩ := hshape
  have hform1 : address.data =
      street ++ ',' :: (c ++ ',' :: (w1 ++ s0 :: s1 :: (stl ++ (sep ++ z)))) := by
    rw [haddr]; simp
  have hform2 : address.data =
      street ++ ',' :: (c ++ ',' :: (w1 ++ ((s0 :: s1 :: stl) ++ (sep ++ z)))) := by
    rw [haddr]; simp
  have htail : NoComma (w1 ++ s0 :: s1 :: (stl ++ (sep ++ z))) := by
    intro x hx
    simp only [List.mem_append, List.mem_cons] at hx
    rcases hx with hx | rfl | rfl | hx | hx | hx
    · exact ne_comma_of_ws x (hw1 x hx)
    · exact ne_comma_of_class _ (hsn _ (List.mem_cons_self _ _))
    · exact ne_comma_of_class _
        (hsn _ (List.mem_cons_of_mem _ (List.mem_cons_self _ _)))
    · exact ne_comma_of_class x
        (hsn x (List.mem_cons_of_mem _ (List.mem_cons_of_mem _ hx)))
    · exact ne_comma_of_ws x (hsep x hx)
    · exact ne_comma_of_digit x (hz x hx)
  have hp1 : pattern1Core address.data = none := by
    rw [hform1]
    exact pattern1_none street c s0 s1 (stl ++ (sep ++ z)) w1
      hstreet hc hcne hw1 hs0 hns htail
  have hp2 : pattern2Core address.data = some (c, (s0 :: s1 :: stl) ++ sep) := by
    rw [hform2]
    exact pattern2_match street c s0 (s1 :: stl) sep z w1
      hstreet hc hcne hw1 hsn hs0 hsep hz
  have hstrip : pstrip ((s0 :: s1 :: stl) ++ sep) = s0 :: s1 :: stl :=
    pstrip_append_ws s0 (s1 :: stl) sep hs0 htrim hsep
  simp only [extract_city_state_from_address, hp1, hp2, hstrip, hlook, Option.getD_some]

/-- Witness for the amended C4 at a concrete title-case state name. -/
theorem parse_full_state_name_witness :
    extract_city_state_from_address none "123 Main St, Springfield, Illinois 62701" =
      ("Springfield", "IL") := by
  have h := parse_full_state_name none "123 Main St, Springfield, Illinois 62701"
    "123 Main St".data " Springfield".data 'I' 'l' "linois".data
    " ".data " ".data "62701".data "IL"
    (by unfold ShapeFullState NoComma; decide) (by unfold NoComma; decide)
    (by decide) (by decide)
  exact h.trans (by decide)

/-- Counterexample to C4 as stated.  (1) `"123 Main St, Anchorage, ALASKA
99501"` carries the full state name ALASKA (case-insensitively `alaska`, table
abbreviation `AK`), yet the parser returns state `"AL"`: the first two capitals
of ALASKA are captured by the earlier 2-letter-state regex.  (2) In
`"A, B, C St, Springfield, Illinois 62701"` the comma-bearing street hijacks
the leftmost match of the full-state pattern, yielding `("B", "C ST")` instead
of `("Springfield", "IL")`. -/
theorem parse_full_state_name_cex :
    (ShapeFullState "123 Main St, Anchorage, ALASKA 99501".data "123 Main St".data
        " Anchorage".data "ALASKA".data " ".data " ".data "99501".data "AK" ∧
      extract_city_state_from_address none "123 Main St, Anchorage, ALASKA 99501" =
        ("Anchorage", "AL") ∧
      extract_city_state_from_address none "123 Main St, Anchorage, ALASKA 99501" ≠
        ("Anchorage", "AK")) ∧
    (ShapeFullState "A, B, C St, Springfield, Illinois 62701".data "A, B, C St".data
        " Springfield".data "Illinois".data " ".data " ".data "62701".data "IL" ∧
      extract_city_state_from_address none "A, B, C St, Springfield, Illinois 62701" =
        ("B", "C ST") ∧
      extract_city_state_from_address none "A, B, C St, Springfield, Illinois 62701" ≠
        ("Springfield", "IL")) := by
  exact ⟨⟨by unfold ShapeFullState NoComma; decide, by decide, by decide⟩,
         ⟨by unfold ShapeFullState NoComma; decide, by decide, by decide⟩⟩

/-- Witness for C9: a concrete non-video path is routed to image analysis. -/
theorem media_dispatch_filename_only_witness :
    (analyze_media_model (fun _ => []) "photo.jpg").1 = MediaRoute.image := by
  have h := media_dispatch_filename_only (fun _ => []) (fun _ => []) "photo.jpg"
  refine h.2.2 ?_
  intro hex
  exact absurd (h.2.1.mpr hex) (by decide)
